import Mathlib

/-!
Verification of the `ortt-client` network-diagnostic agent
(`src/formatter.py`, `src/main.py`, `src/utility.py`).

The Python code is shallowly embedded: strings are `List Char`, Python
`int` is `Nat` (all parsed integers are non-negative decimal literals),
and fallible parsing returns `Option`.  The one floating-point operation,
`sum(rtts) / len(rtts)`, is CPython integer true division: it produces
the IEEE-754 binary64 value nearest the exact quotient (ties to even,
subnormals included) and raises `OverflowError` when the rounded result
would exceed the largest finite binary64 value.  Every non-negative
binary64 value is an exact rational, so this operation is embedded as
`pyFloatDiv : Nat → Nat → Option ℚ`, which computes that correctly
rounded value exactly (`none` = `OverflowError`); the raised exception
propagates to the parser's `except` handler, so the embedded
`parse_tracert_output` returns an `Option` like the source's
`... | None`.

Regular expressions are embedded by specialised matchers whose semantics
follow CPython `re` (leftmost match, greedy quantifiers with
backtracking); the reductions performed (e.g. that a greedy `(\d+)`
followed by a suffix starting with a non-digit character always captures
the maximal digit run) are justified in comments at each definition.
-/

namespace OrttClient

set_option maxRecDepth 16384

/-! ## Character classes and Python string primitives -/

/-- Python `\s` / `str.strip()` / `str.split()` whitespace, ASCII range
(space, tab, newline, carriage return, vertical tab, form feed). -/
def isPySpace (c : Char) : Bool :=
  c = ' ' || c = '\t' || c = '\n' || c = '\r' || c = '\x0b' || c = '\x0c'

/-- Python `\d` / `str.isdigit()` digit, ASCII range. -/
def isDigitChar (c : Char) : Bool :=
  '0' ≤ c && c ≤ '9'

/-- Python `\w` word character, ASCII range (letters, digits, underscore). -/
def isWordChar (c : Char) : Bool :=
  c.isAlpha || isDigitChar c || c = '_'

/-- Value of a decimal digit string, as computed by Python `int(...)`. -/
def natOfDigits (ds : List Char) : Nat :=
  ds.foldl (fun n c => 10 * n + (c.toNat - 48)) 0

/-- Coerce a Lean string literal to the `List Char` representation. -/
def s2l (s : String) : List Char := s.data

/-- Python `str.strip()`: drop leading and trailing whitespace. -/
def pyStrip (s : List Char) : List Char :=
  ((s.dropWhile isPySpace).reverse.dropWhile isPySpace).reverse

/-- Helper for `pySplit`: accumulate the current (reversed) token. -/
def pySplitAux : List Char → List Char → List (List Char)
  | acc, [] => if acc.isEmpty then [] else [acc.reverse]
  | acc, c :: t =>
      if isPySpace c then
        if acc.isEmpty then pySplitAux [] t else acc.reverse :: pySplitAux [] t
      else
        pySplitAux (c :: acc) t

/-- Python `str.split()` with no argument: split on runs of whitespace,
producing no empty tokens. -/
def pySplit (s : List Char) : List (List Char) := pySplitAux [] s

/-- Helper for `pySplitlines`: `\n`, `\r\n` and `\r` each end a line, and a
terminator at the very end of the string does not open a final empty line. -/
def pySplitlinesAux : List Char → List Char → List (List Char)
  | acc, [] => [acc.reverse]
  | acc, '\r' :: '\n' :: t =>
      acc.reverse :: (if t.isEmpty then [] else pySplitlinesAux [] t)
  | acc, '\n' :: t =>
      acc.reverse :: (if t.isEmpty then [] else pySplitlinesAux [] t)
  | acc, '\r' :: t =>
      acc.reverse :: (if t.isEmpty then [] else pySplitlinesAux [] t)
  | acc, c :: t => pySplitlinesAux (c :: acc) t

/-- Python `str.splitlines()` restricted to the `\n`/`\r\n`/`\r`
terminators. -/
def pySplitlines (s : List Char) : List (List Char) :=
  if s.isEmpty then [] else pySplitlinesAux [] s

/-! ## `parse_ping_output` (src/formatter.py lines 7-23, src/main.py 119-135)

Each of the four regular expressions has the shape
`literal-prefix (\d+) literal-suffix`.  The literal characters are taken
verbatim from the source file decoded as UTF-8, exactly as CPython reads
it: the patterns are CP866 Russian text that survived a lossy UTF-8
round-trip, so most pattern characters are U+FFFD REPLACEMENT CHARACTER,
with a few CP866 byte triples that happened to form valid UTF-8 sequences
decoding to other code points:

  * bytes E1 A8 AC, CP866 "сим" (of "Мак**сим**альное", maximum) → U+1A2C;
  * bytes EC AD AE, CP866 "ьно" (of "Минимал**ьно**е" / "Максимал**ьно**е") → U+CB6E;
  * bytes E0 A5 A4, CP866 "ред" (of "С**ред**нее", average)  → U+0964;
  * bytes E1 A5 AA, CP866 "сек" (of "м**сек**") → U+196A.

These surviving fragments identify the Russian label each pattern matches:
`min_rtt_match` matches the "Минимальное" (minimum) label,
`avg_rtt_match` matches the "Максимальное" (maximum) label, and
`max_rtt_match` matches the "Среднее" (average) label — the latter two
contrary to the `# Avg RTT` / `# Max RTT` comments in the source.
-/

/-- Literal prefix of `r"\((\d+)% ?????\)"` (`packet_loss_match`). -/
def packet_loss_pre : List Char := s2l "("

/-- Literal suffix of `packet_loss_match` (garbled "% потерь)" marker). -/
def packet_loss_suf : List Char := s2l "% �����)"

/-- Literal prefix of `min_rtt_match`: garbled "Минимальное = ". -/
def min_rtt_pre : List Char := s2l "�������쭮� = "

/-- Literal suffix of `min_rtt_match`: garbled "мсек" (no leading space). -/
def min_rtt_suf : List Char := s2l "�ᥪ"

/-- Literal prefix of `avg_rtt_match`: garbled "Максимальное = " — the
*maximum* label of the probe output, despite the `# Avg RTT` comment. -/
def avg_rtt_pre : List Char := s2l "���ᨬ��쭮� = "

/-- Literal suffix of `avg_rtt_match`: garbled " мсек" (leading space). -/
def avg_rtt_suf : List Char := s2l " �ᥪ"

/-- Literal prefix of `max_rtt_match`: garbled "Среднее = " — the
*average* label of the probe output, despite the `# Max RTT` comment. -/
def max_rtt_pre : List Char := s2l "�।��� = "

/-- Literal suffix of `max_rtt_match`: garbled " мсек" (leading space). -/
def max_rtt_suf : List Char := s2l " �ᥪ"

/-- Attempt to match `pre (\d+) suf` anchored at the start of `s`,
returning the captured number.  All four suffixes used in this file start
with a non-digit character, so the greedy `(\d+)` always captures the
maximal digit run (backtracking to a shorter run would place a digit
where the suffix requires its non-digit first character). -/
def matchNumAt (pre suf s : List Char) : Option Nat :=
  if pre.isPrefixOf s then
    let rest := s.drop pre.length
    let ds := rest.takeWhile isDigitChar
    if !ds.isEmpty && suf.isPrefixOf (rest.drop ds.length) then
      some (natOfDigits ds)
    else none
  else none

/-- CPython `re.search` for a pattern `pre (\d+) suf`: try each start
position from the left, returning the first (leftmost) match's captured
number. -/
def searchNum (pre suf : List Char) : List Char → Option Nat
  | [] => matchNumAt pre suf []
  | c :: t =>
      match matchNumAt pre suf (c :: t) with
      | some n => some n
      | none => searchNum pre suf t

/-- The dictionary returned by `parse_ping_output` on success. -/
structure PingStats where
  packet_loss : Nat
  min_rtt : Nat
  avg_rtt : Nat
  max_rtt : Nat
deriving DecidableEq, Repr

/-- `parse_ping_output` (src/formatter.py lines 7-23): four independent
regex searches; all four must succeed, otherwise `None`. -/
def parse_ping_output (output : List Char) : Option PingStats :=
  let packet_loss_match := searchNum packet_loss_pre packet_loss_suf output
  let min_rtt_match := searchNum min_rtt_pre min_rtt_suf output
  let avg_rtt_match := searchNum avg_rtt_pre avg_rtt_suf output
  let max_rtt_match := searchNum max_rtt_pre max_rtt_suf output
  match packet_loss_match, min_rtt_match, avg_rtt_match, max_rtt_match with
  | some pl, some mn, some av, some mx => some ⟨pl, mn, av, mx⟩
  | _, _, _, _ => none

/-! ## `parse_tracert_output` (src/formatter.py lines 26-63, src/main.py 138-175)

The per-line pattern is `^\s*(\d+)\s+([\dms* ]+)\s+([\w.\-]+)?`, applied
with `re.match` (anchored at the start, prefix match).  Backtracking
analysis, reflected in the matcher below:

  * the leading `\s*` must take the maximal whitespace run (shortening it
    would start `(\d+)` on a whitespace character);
  * `(\d+)` must take the maximal digit run (shortening it would start
    the following `\s+` on a digit);
  * the trailing `([\w.\-]+)?` is optional and last, so the `\s+` before
    it can always take its maximal run, and the group captures the
    maximal (possibly empty, then absent) class run after it;
  * only the middle `\s+` (length `c`) and `([\dms* ]+)` (length `d`)
    interact, because the class `[\dms* ]` contains the space character:
    the engine prefers the largest `c`, and for each `c` the largest `d`
    whose captured run consists of class characters and is followed by at
    least one whitespace character (for the second `\s+`).
-/

/-- The character class `[\dms* ]` of the round-trip-time group. -/
def isRttChar (c : Char) : Bool :=
  isDigitChar c || c = 'm' || c = 's' || c = '*' || c = ' '

/-- The character class `[\w.\-]` of the optional address group. -/
def isAddrChar (c : Char) : Bool :=
  isWordChar c || c = '.' || c = '-'

/-- Is `d` a valid length for the `([\dms* ]+)` group at the start of
`s`:  positive, all captured characters in the class, and followed by at
least one whitespace character (required by the subsequent `\s+`). -/
def validRttLen (s : List Char) (d : Nat) : Bool :=
  0 < d && (s.take d).all isRttChar &&
    (match s.get? d with
     | some ch => isPySpace ch
     | none => false)

/-- Largest valid `([\dms* ]+)` length `≤ dmax` at the start of `s`
(the greedy group backtracks from the longest candidate down). -/
def findRttLen (s : List Char) : Nat → Option Nat
  | 0 => none
  | d + 1 => if validRttLen s (d + 1) then some (d + 1) else findRttLen s d

/-- For a given length `c` of the middle `\s+`, find the greedy length of
the `([\dms* ]+)` group in the remainder. -/
def tryMidSpaces (rest2 : List Char) (c : Nat) : Option (Nat × Nat) :=
  let afterC := rest2.drop c
  match findRttLen afterC (afterC.takeWhile isRttChar).length with
  | some d => some (c, d)
  | none => none

/-- Backtracking search over the middle `\s+` length, from the maximal
whitespace run down to 1 (the engine prefers the greedy, longer run). -/
def findMidSplit (rest2 : List Char) : Nat → Option (Nat × Nat)
  | 0 => none
  | c + 1 =>
      match tryMidSpaces rest2 (c + 1) with
      | some cd => some cd
      | none => findMidSplit rest2 c

/-- `re.match(r"^\s*(\d+)\s+([\dms* ]+)\s+([\w.\-]+)?", line)`:
returns the three captured groups (digits, raw round-trip-time field,
optional address) or `none` when the line does not match. -/
def matchHopLine (line : List Char) :
    Option (List Char × List Char × Option (List Char)) :=
  let rest1 := line.dropWhile isPySpace
  let g1 := rest1.takeWhile isDigitChar
  if g1.isEmpty then none
  else
    let rest2 := rest1.drop g1.length
    let wmax := (rest2.takeWhile isPySpace).length
    match findMidSplit rest2 wmax with
    | none => none
    | some (c, d) =>
        let g2 := (rest2.drop c).take d
        let rest3 := rest2.drop (c + d)
        let e := (rest3.takeWhile isPySpace).length
        let g3 := (rest3.drop e).takeWhile isAddrChar
        some (g1, g2, if g3.isEmpty then none else some g3)

/-- A value stored in a hop dictionary: a Python `int`, a Python `float`
(modelled exactly as a rational), or the wildcard string `"*"`.  The
distinction between `int` and `float` is observable in the JSON
serialization (`11` versus `11.0`). -/
inductive JVal where
  | int : Nat → JVal
  | float : ℚ → JVal
  | star : JVal
deriving DecidableEq, Repr

/-- One hop dictionary appended by `parse_tracert_output`. -/
structure RouteHop where
  hop : Nat
  ip : List Char
  min_rtt : JVal
  avg_rtt : JVal
  max_rtt : JVal
deriving DecidableEq, Repr

/-- Python `min` over a non-empty list, folded from the left:
`pyMin a t = min(a :: t)`. -/
def pyMin : Nat → List Nat → Nat
  | a, [] => a
  | a, b :: t => pyMin (Nat.min a b) t

/-- Python `max` over a non-empty list, folded from the left:
`pyMax a t = max(a :: t)`. -/
def pyMax : Nat → List Nat → Nat
  | a, [] => a
  | a, b :: t => pyMax (Nat.max a b) t

/-- Python `sum` (left fold starting from 0). -/
def sumList (l : List Nat) : Nat := l.foldl (· + ·) 0

/-- `[int(r) for r in match.group(2).strip().split() if r.isdigit()]`:
the numeric round-trip-time samples of one matched line. -/
def extractRtts (g2 : List Char) : List Nat :=
  (pySplit (pyStrip g2)).filterMap
    (fun r => if r.all isDigitChar then some (natOfDigits r) else none)

/-! ### CPython integer true division → binary64

`sum(rtts) / len(rtts)` on Python `int`s returns the binary64 float
nearest the exact quotient (round to nearest, ties to even, gradual
underflow to subnormals) and raises `OverflowError` when the rounded
result would be infinite.  The helpers below implement that rounding
exactly over `Nat`/`ℚ`; binary64 has 53 significand bits, smallest
subnormal `2⁻¹⁰⁷⁴`, and overflows at `2¹⁰²⁴`.  `pyFloatDiv` below was
differential-tested against CPython's division on random and boundary
operands (binade edges `2⁵³ ± k`, exact ties, the subnormal range, and
the overflow threshold `2¹⁰²⁴ − 2⁹⁷⁰`). -/

/-- `⌊log₂ n⌋` for `n ≥ 1` (0 for `n ≤ 1`), by fuelled halving; the fuel
`n` always suffices since `⌊log₂ n⌋ < n`. -/
def log2Aux : Nat → Nat → Nat
  | 0, _ => 0
  | fuel + 1, n => if n ≤ 1 then 0 else log2Aux fuel (n / 2) + 1

/-- `⌊log₂ n⌋` for `n ≥ 1`. -/
def natLog2 (n : Nat) : Nat := log2Aux n n

/-- Does `2^d ≤ a / b` hold (for `a, b ≥ 1`), with `d` an integer? -/
def pow2MulLe (b a : Nat) : Int → Bool
  | Int.ofNat k => b * 2 ^ k ≤ a
  | Int.negSucc k => b ≤ a * 2 ^ (k + 1)

/-- `⌊log₂ (a / b)⌋` for `a, b ≥ 1`: the candidate
`⌊log₂ a⌋ − ⌊log₂ b⌋` is exact or one too large, so one test fixes it. -/
def ratFloorLog2 (a b : Nat) : Int :=
  let d : Int := (natLog2 a : Int) - (natLog2 b : Int)
  if pow2MulLe b a d then d else d - 1

/-- The exact rational value `m · 2^k`. -/
def ratPow2 (m : Nat) : Int → ℚ
  | Int.ofNat k => Rat.divInt (m * 2 ^ k) 1
  | Int.negSucc k => Rat.divInt m (2 ^ (k + 1))

/-- Does `m · 2^k ≥ 2¹⁰²⁴` hold — i.e. does the rounded value overflow
binary64? -/
def pow2Overflows (m : Nat) : Int → Bool
  | Int.ofNat k => 2 ^ 1024 ≤ m * 2 ^ k
  | Int.negSucc k => 2 ^ (1024 + (k + 1)) ≤ m

/-- CPython `a / b` on non-negative `int`s: the exact rational value of
the correctly rounded binary64 quotient, or `none` for `OverflowError`
(`ZeroDivisionError` for `b = 0` is likewise an exception, also mapped
to `none`; the caller's sample list is non-empty, so it cannot occur).
The quotient is rounded to the nearest multiple of the quantum
`2^max(⌊log₂(a/b)⌋ − 52, −1074)`, ties to the even multiple; a rounded
value of `2¹⁰²⁴` or more means IEEE round-to-nearest would give
infinity, which CPython reports as `OverflowError`. -/
def pyFloatDiv (a b : Nat) : Option ℚ :=
  if b = 0 then none
  else if a = 0 then some 0
  else
    let e := ratFloorLog2 a b
    let qexp : Int := max (e - 52) (-1074)
    let N := a * 2 ^ (-qexp).toNat
    let D := b * 2 ^ qexp.toNat
    let m0 := N / D
    let r := N % D
    let m : Nat :=
      if 2 * r < D then m0
      else if D < 2 * r then m0 + 1
      else if m0 % 2 = 0 then m0 else m0 + 1
    if pow2Overflows m qexp then none else some (ratPow2 m qexp)

/-- The hop dictionary built from the extracted samples: `min`/`mean`/
`max` when the sample list is non-empty (`min`/`max` are Python `int`s,
the mean `sum(rtts) / len(rtts)` the binary64 float computed by
`pyFloatDiv`), all wildcards when it is empty.  `none` is the
`OverflowError` raised by the division (the only statement of the loop
body that can raise), which aborts the whole parse via the `except`
handler. -/
def hopOfRtts (hop_num : Nat) (ip_address : List Char) :
    List Nat → Option RouteHop
  | [] => some ⟨hop_num, ip_address, JVal.star, JVal.star, JVal.star⟩
  | a :: t =>
      match pyFloatDiv (sumList (a :: t)) (a :: t).length with
      | some avg_rtt =>
          some ⟨hop_num, ip_address,
            JVal.int (pyMin a t), JVal.float avg_rtt, JVal.int (pyMax a t)⟩
      | none => none

/-- The body of the `for line in data_lines` loop: `some none` when the
regex does not match (the line is skipped), `some (some h)` for a parsed
hop dictionary, `none` when an `OverflowError` is raised while building
the hop.  `hop_num = int(match.group(1))`, the address defaults to `"*"`
when the optional third group is absent. -/
def parseHopLine (line : List Char) : Option (Option RouteHop) :=
  match matchHopLine line with
  | none => some none
  | some (g1, g2, g3) =>
      Option.map some (hopOfRtts (natOfDigits g1)
        (match g3 with
         | some ip => ip
         | none => s2l "*")
        (extractRtts g2))

/-- The `for` loop of `parse_tracert_output`: append the hops of the
matching lines in order; an exception on any line aborts the whole loop
(the partial `hops` list is discarded by the `except` handler). -/
def collectHops : List (List Char) → Option (List RouteHop)
  | [] => some []
  | line :: rest =>
      match parseHopLine line with
      | none => none
      | some none => collectHops rest
      | some (some h) =>
          match collectHops rest with
          | none => none
          | some hops => some (h :: hops)

/-- `parse_tracert_output` (src/formatter.py lines 26-63): strip the
output, split into lines, drop the first three lines, and collect the
hops of the matching lines in order; `none` is the `except` branch
(`return None`), reached exactly when the float division of some hop
raises `OverflowError`. -/
def parse_tracert_output (output : List Char) : Option (List RouteHop) :=
  let lines := pySplitlines (pyStrip output)
  let data_lines := lines.drop 3
  collectHops data_lines

/-! ## `run_diagnostic` (src/main.py lines 178-216)

The subprocess interaction is modelled at the decoded-text level: the
embedding takes the decoded standard-output and standard-error of the
external process as inputs.  Python's `stderr.decode('utf-8',
errors='replace')` maps non-empty byte strings to non-empty text and the
empty byte string to empty text, so the truthiness test `if stderr:`
corresponds to the decoded error text being non-empty.  The outermost
`try/except` (which converts a process-launch failure into an error
string) lies outside this model, which starts after the streams exist.

The result string is represented structurally, with one constructor per
`return` site, so that JSON serialization of the structured results need
not be modelled: `errorStr` carries the exact returned error string,
`jsonPing`/`jsonTracert` carry the structure passed to `json.dumps`. -/

/-- The three shapes of string returned by `run_diagnostic`. -/
inductive RunResult where
  | errorStr : List Char → RunResult
  | jsonPing : PingStats → RunResult
  | jsonTracert : List RouteHop → RunResult
deriving DecidableEq, Repr

/-- Whether a `run_diagnostic` result is an error-tagged string. -/
def RunResult.isErrorTagged : RunResult → Bool
  | .errorStr _ => true
  | .jsonPing _ => false
  | .jsonTracert _ => false

/-- The argument vector of `asyncio.create_subprocess_exec(command,
target, ...)` at src/main.py line 182: exactly the command name and the
target, built unconditionally for every command kind — there is no kind
validation and no additional fixed argument. -/
def create_subprocess_exec_args (command target : List Char) :
    List (List Char) :=
  [command, target]

/-- The `else:  # tracert` block of `run_diagnostic` (src/main.py lines
207-212), reached by *every* command other than `"ping"`.  Note that
`if tracert_data:` is a Python truthiness test: it takes the error
branch both for `None` and for the empty hop list. -/
def run_tracert_branch (out : List Char) : RunResult :=
  match parse_tracert_output out with
  | some tracert_data =>
      if !tracert_data.isEmpty then RunResult.jsonTracert tracert_data
      else RunResult.errorStr (s2l "Error: Could not parse tracert output")
  | none => RunResult.errorStr (s2l "Error: Could not parse tracert output")

/-- The result logic of `run_diagnostic` after the streams are decoded
(src/main.py lines 187-212). -/
def run_result (command out err : List Char) : RunResult :=
  if !err.isEmpty then
    RunResult.errorStr (s2l "Error: " ++ err)
  else if command = s2l "ping" then
    match parse_ping_output out with
    | some ping_stats => RunResult.jsonPing ping_stats
    | none => RunResult.errorStr (s2l "Error: Could not parse ping output")
  else
    run_tracert_branch out

/-! ## Session (`DiagnosticClient`, src/main.py lines 219-292) -/

/-- An inbound server message as consumed by `process_message`:
`message.get("type")`, `message.get("command")` and
`message.get("target")` (each absent key yields `None`). -/
structure InboundMsg where
  mtype : Option (List Char)
  command : Option (List Char)
  target : Option (List Char)

/-- The dispatch test of `process_message` (src/main.py lines 272-280):
a diagnostic runs only when the type is `"command"` and the command is
`"tracert"` or `"ping"`; every other message is silently ignored
(no result is sent, no process is started). -/
def process_message_dispatch (msg : InboundMsg) :
    Option (List Char × Option (List Char)) :=
  if msg.mtype = some (s2l "command") then
    match msg.command with
    | some command =>
        if command = s2l "tracert" ∨ command = s2l "ping" then
          some (command, msg.target)
        else none
    | none => none
  else none

/-- The payload of the registration message sent by `register_client`. -/
structure RegistrationData where
  agreement_id : List Char
  city : List Char
  os_name : List Char
  hostname : List Char
deriving DecidableEq, Repr

/-- Observable events of one connection, in order. -/
inductive SessionEvent where
  | sendRegistration : RegistrationData → SessionEvent
  | sendResult : List Char → Option (List Char) → RunResult → SessionEvent
  | exitProcess : SessionEvent
deriving DecidableEq, Repr

/-- `register_client` (src/main.py lines 240-257): with a non-empty
(truthy) `agreement_id` the registration message is sent; with an empty
one the process terminates via `sys.exit()` (a `SystemExit` that no
enclosing `except Exception` handler catches). -/
def register_client (agreement_id city os_name hostname : List Char) :
    List SessionEvent :=
  if !agreement_id.isEmpty then
    [SessionEvent.sendRegistration ⟨agreement_id, city, os_name, hostname⟩]
  else
    [SessionEvent.exitProcess]

/-- The result messages produced by `message_handler`/`process_message`
for a sequence of inbound messages, each paired with the decoded
standard-output and standard-error its subprocess would produce.
Undispatched messages produce nothing. -/
def message_handler_events
    (inbox : List (InboundMsg × List Char × List Char)) :
    List SessionEvent :=
  inbox.filterMap (fun arg =>
    match process_message_dispatch arg.1 with
    | some (command, target) =>
        some (SessionEvent.sendResult command target
          (run_result command arg.2.1 arg.2.2))
    | none => none)

/-- One iteration of `connect` (src/main.py lines 225-238):
`register_client` runs first; if it terminated the process, nothing else
ever happens, otherwise `message_handler` processes the inbox. -/
def connection_events (agreement_id city os_name hostname : List Char)
    (inbox : List (InboundMsg × List Char × List Char)) :
    List SessionEvent :=
  let reg := register_client agreement_id city os_name hostname
  if SessionEvent.exitProcess ∈ reg then reg
  else reg ++ message_handler_events inbox

/-! ## Concrete probe texts used in the claim theorems -/

/-- A latency-probe text of the real report shape after the lossy CP866 →
UTF-8 decode, containing all four fields with *consistent* samples:
packet loss 0, labeled minimum ("Минимальное") 10, labeled maximum
("Максимальное") 22, labeled average ("Среднее") 15.  The literal label
fragments are exactly the garbled prefixes/suffixes the source patterns
search for. -/
def pingSwappedLabelsInput : List Char :=
  s2l "Ping stats:\n    " ++
    packet_loss_pre ++ s2l "0" ++ packet_loss_suf ++
  s2l "\nApprox rtt:\n    " ++
    min_rtt_pre ++ s2l "10" ++ min_rtt_suf ++ s2l ", " ++
    avg_rtt_pre ++ s2l "22" ++ avg_rtt_suf ++ s2l ", " ++
    max_rtt_pre ++ s2l "15" ++ max_rtt_suf

/-- A probe text containing the packet-loss, minimum and
"Максимальное" fields but no "Среднее" field. -/
def pingMissingFieldInput : List Char :=
  packet_loss_pre ++ s2l "5" ++ packet_loss_suf ++ s2l " " ++
    min_rtt_pre ++ s2l "10" ++ min_rtt_suf ++ s2l " " ++
    avg_rtt_pre ++ s2l "22" ++ avg_rtt_suf

/-- A route-trace text none of whose post-header lines matches the hop
pattern. -/
def noHopLinesInput : List Char := s2l "a\nb\nc\nzzz"

/-- A second hop-less route-trace text. -/
def noHopLinesInput2 : List Char := s2l "h1\nh2\nh3\nxxx and more!"

/-- The route-trace text of the concrete scenario: two recognized hops,
hop 1 with samples 10, 12, 11 ms and address 10.0.0.1, hop 2 with all
samples timed out and no address. -/
def tracertTwoHopInput : List Char :=
  s2l "Tracing route to example.com [93.184.216.34]\nover a maximum of 30 hops:\n\n  1    10 ms    12 ms    11 ms  10.0.0.1\n  2     *        *        *"

/-- A decoded standard-output that parses to one recognized hop. -/
def tracertLikeOutput : List Char :=
  s2l "Header line\nsecond line\nthird line\n 1  5 ms  gateway"

/-- A route-trace text starting with a blank line, so that the stripped
text's lines are shifted by one against the raw input's lines. -/
def headerShiftInput : List Char := s2l "\nh\nh\n1 10 ms a\n2 20 ms b"

/-- A route-trace text with one fully numeric hop. -/
def numericHopInput : List Char := s2l "1\n2\n3\n 5  4 ms 6 ms  203.0.113.9"

/-- A route-trace text with a single hop whose only sample is
`2⁵³ + 1 = 9007199254740993`, the smallest integer not representable in
binary64. -/
def bigSampleInput : List Char :=
  s2l "1\n2\n3\n 1  9007199254740993 ms  host"

/-! ## Helper lemmas -/

lemma foldl_add_shift (t : List Nat) :
    ∀ x : Nat, List.foldl (· + ·) x t = x + List.foldl (· + ·) 0 t := by
  induction t with
  | nil => intro x; simp
  | cons b t ih =>
      intro x
      simp only [List.foldl]
      rw [ih (x + b), ih (0 + b)]
      omega

lemma sumList_cons (a : Nat) (t : List Nat) :
    sumList (a :: t) = a + sumList t := by
  simp only [sumList, List.foldl]
  rw [foldl_add_shift t (0 + a)]
  omega

lemma pyMin_le_head : ∀ (t : List Nat) (a : Nat), pyMin a t ≤ a := by
  intro t
  induction t with
  | nil => intro a; simp [pyMin]
  | cons b t ih =>
      intro a
      exact le_trans (ih (Nat.min a b)) (Nat.min_le_left a b)

lemma head_le_pyMax : ∀ (t : List Nat) (a : Nat), a ≤ pyMax a t := by
  intro t
  induction t with
  | nil => intro a; simp [pyMax]
  | cons b t ih =>
      intro a
      exact le_trans (Nat.le_max_left a b) (ih (Nat.max a b))

lemma pyMin_mul_le_sum :
    ∀ (t : List Nat) (a : Nat), pyMin a t * (t.length + 1) ≤ a + sumList t := by
  intro t
  induction t with
  | nil => intro a; simp [pyMin, sumList]
  | cons b t ih =>
      intro a
      have h1 := ih (Nat.min a b)
      have h2 := pyMin_le_head t (Nat.min a b)
      have h3 := Nat.min_le_left a b
      have h4 := Nat.min_le_right a b
      rw [sumList_cons]
      simp only [pyMin, List.length_cons]
      have hmul : pyMin (Nat.min a b) t * (t.length + 1 + 1)
          = pyMin (Nat.min a b) t * (t.length + 1) + pyMin (Nat.min a b) t := by
        ring
      rw [hmul]
      calc pyMin (Nat.min a b) t * (t.length + 1) + pyMin (Nat.min a b) t
          ≤ (Nat.min a b + sumList t) + Nat.min a b := Nat.add_le_add h1 h2
        _ ≤ (a + sumList t) + b := Nat.add_le_add (Nat.add_le_add h3 le_rfl) h4
        _ = a + (b + sumList t) := by ring

lemma sum_le_pyMax_mul :
    ∀ (t : List Nat) (a : Nat), a + sumList t ≤ pyMax a t * (t.length + 1) := by
  intro t
  induction t with
  | nil => intro a; simp [pyMax, sumList]
  | cons b t ih =>
      intro a
      have h1 := ih (Nat.max a b)
      have h2 := head_le_pyMax t (Nat.max a b)
      have h3 := Nat.le_max_left a b
      have h4 := Nat.le_max_right a b
      rw [sumList_cons]
      simp only [pyMax, List.length_cons]
      have hmul : pyMax (Nat.max a b) t * (t.length + 1 + 1)
          = pyMax (Nat.max a b) t * (t.length + 1) + pyMax (Nat.max a b) t := by
        ring
      rw [hmul]
      calc a + (b + sumList t)
          = (a + sumList t) + b := by ring
        _ ≤ (Nat.max a b + sumList t) + Nat.max a b :=
            Nat.add_le_add (Nat.add_le_add h3 le_rfl) h4
        _ ≤ pyMax (Nat.max a b) t * (t.length + 1) + pyMax (Nat.max a b) t :=
            Nat.add_le_add h1 h2

/-- For a non-empty sample list, the left-folded minimum is at most the
arithmetic mean, which is at most the left-folded maximum. -/
lemma pyMin_le_mean_le_pyMax (a : Nat) (t : List Nat) :
    (pyMin a t : ℚ) ≤ (sumList (a :: t) : ℚ) / (((a :: t).length : Nat) : ℚ) ∧
    (sumList (a :: t) : ℚ) / (((a :: t).length : Nat) : ℚ) ≤ (pyMax a t : ℚ) := by
  have hlen : (0 : ℚ) < (((a :: t).length : Nat) : ℚ) := by
    simp only [List.length_cons]
    exact_mod_cast Nat.succ_pos t.length
  constructor
  · rw [le_div_iff₀ hlen]
    have key : pyMin a t * (a :: t).length ≤ sumList (a :: t) := by
      rw [sumList_cons]
      simpa [List.length_cons] using pyMin_mul_le_sum t a
    exact_mod_cast key
  · rw [div_le_iff₀ hlen]
    have key : sumList (a :: t) ≤ pyMax a t * (a :: t).length := by
      rw [sumList_cons]
      simpa [List.length_cons] using sum_le_pyMax_mul t a
    exact_mod_cast key

/-- The first captured group of a successful hop-line match is the
maximal digit run following the leading whitespace. -/
lemma matchHopLine_fst {line : List Char}
    {g : List Char × List Char × Option (List Char)}
    (h : matchHopLine line = some g) :
    g.1 = (line.dropWhile isPySpace).takeWhile isDigitChar := by
  simp only [matchHopLine] at h
  split at h
  · cases h
  · split at h
    · cases h
    · cases h
      rfl

/-- Every successfully parsed hop is of the `hopOfRtts` shape. -/
lemma parseHopLine_shape {line : List Char} {h : RouteHop}
    (hs : parseHopLine line = some (some h)) :
    ∃ num ip rtts, hopOfRtts num ip rtts = some h := by
  unfold parseHopLine at hs
  rcases hm : matchHopLine line with _ | ⟨g1, g2, g3⟩ <;> rw [hm] at hs
  · exact absurd (Option.some.inj hs) (by simp)
  · obtain ⟨h2, hh, hsome2⟩ := Option.map_eq_some'.mp hs
    exact ⟨_, _, _, hh.trans (congrArg some (Option.some.inj hsome2))⟩

lemma hopOfRtts_hop {num : Nat} {ip : List Char} {rtts : List Nat}
    {h : RouteHop} (hh : hopOfRtts num ip rtts = some h) : h.hop = num := by
  cases rtts with
  | nil =>
      simp only [hopOfRtts] at hh
      cases hh
      rfl
  | cons a t =>
      simp only [hopOfRtts] at hh
      rcases hd : pyFloatDiv (sumList (a :: t)) (a :: t).length with _ | q <;>
        rw [hd] at hh
      · cases hh
      · cases hh
        rfl

/-- The hop index of a parsed hop is the value of the leading digit run
of its source line. -/
lemma parseHopLine_hop {line : List Char} {h : RouteHop}
    (hs : parseHopLine line = some (some h)) :
    h.hop = natOfDigits ((line.dropWhile isPySpace).takeWhile isDigitChar) := by
  unfold parseHopLine at hs
  rcases hm : matchHopLine line with _ | ⟨g1, g2, g3⟩ <;> rw [hm] at hs
  · exact absurd (Option.some.inj hs) (by simp)
  · obtain ⟨h2, hh, hsome2⟩ := Option.map_eq_some'.mp hs
    have hg1 := matchHopLine_fst hm
    rw [← Option.some.inj hsome2, hopOfRtts_hop hh, ← hg1]

/-- When no exception aborts the loop, the collected hops are exactly
the order-preserving `filterMap` of the per-line parse. -/
lemma collectHops_filterMap :
    ∀ (lines : List (List Char)) (hops : List RouteHop),
      collectHops lines = some hops →
      hops = lines.filterMap (fun l => (parseHopLine l).join) := by
  intro lines
  induction lines with
  | nil =>
      intro hops hc
      cases hc
      rfl
  | cons line rest ih =>
      intro hops hc
      unfold collectHops at hc
      rcases hpl : parseHopLine line with _ | o <;> rw [hpl] at hc
      · cases hc
      · cases o with
        | none =>
            rw [List.filterMap_cons, hpl]
            exact ih hops hc
        | some h =>
            rcases hrest : collectHops rest with _ | hops2 <;> rw [hrest] at hc
            · cases hc
            · cases hc
              rw [List.filterMap_cons, hpl]
              exact congrArg (h :: ·) (ih hops2 hrest)

/-- A hop in a successful parse result comes from some input line. -/
lemma collectHops_mem {lines : List (List Char)} {hops : List RouteHop}
    (hc : collectHops lines = some hops) {h : RouteHop} (hmem : h ∈ hops) :
    ∃ line, line ∈ lines ∧ parseHopLine line = some (some h) := by
  rw [collectHops_filterMap lines hops hc] at hmem
  obtain ⟨line, hline, hjoin⟩ := List.mem_filterMap.mp hmem
  refine ⟨line, hline, ?_⟩
  rcases hpl : parseHopLine line with _ | o <;> rw [hpl] at hjoin
  · exact Option.noConfusion hjoin
  · cases o with
    | none => exact Option.noConfusion hjoin
    | some h2 =>
        obtain rfl : h2 = h := Option.some.inj hjoin
        rfl

/-! ## Claim C1 -/

/-- C1: for a latency-probe text whose labeled samples are consistent
(minimum 10 ≤ average 15 ≤ maximum 22, packet loss 0), `parse_ping_output`
returns `avg_rtt = 22` (read from the "Максимальное"/maximum label) and
`max_rtt = 15` (read from the "Среднее"/average label): the two regular
expressions are swapped relative to their `# Avg RTT` / `# Max RTT`
comments, and the claimed invariant `min_rtt ≤ avg_rtt ≤ max_rtt` fails
(`22 ≤ 15` is false) even though the text's own labels satisfy
`10 ≤ 15 ≤ 22`. -/
theorem c1_ping_avg_max_swapped :
    parse_ping_output pingSwappedLabelsInput = some ⟨0, 10, 22, 15⟩ ∧
    searchNum min_rtt_pre min_rtt_suf pingSwappedLabelsInput = some 10 ∧
    searchNum avg_rtt_pre avg_rtt_suf pingSwappedLabelsInput = some 22 ∧
    searchNum max_rtt_pre max_rtt_suf pingSwappedLabelsInput = some 15 ∧
    (10 ≤ 15 ∧ 15 ≤ 22) ∧ ¬(22 ≤ 15) := by
  decide

/-! ## Claim C5 -/

/-- C5: if any one of the four field searches fails, `parse_ping_output`
returns `None`; by the shape of `PingStats` no partially populated
result can be produced. -/
theorem c5_missing_field_returns_failure (output : List Char)
    (habsent : searchNum packet_loss_pre packet_loss_suf output = none ∨
        searchNum min_rtt_pre min_rtt_suf output = none ∨
        searchNum avg_rtt_pre avg_rtt_suf output = none ∨
        searchNum max_rtt_pre max_rtt_suf output = none) :
    parse_ping_output output = none := by
  simp only [parse_ping_output]
  cases h1 : searchNum packet_loss_pre packet_loss_suf output <;>
    cases h2 : searchNum min_rtt_pre min_rtt_suf output <;>
      cases h3 : searchNum avg_rtt_pre avg_rtt_suf output <;>
        cases h4 : searchNum max_rtt_pre max_rtt_suf output <;>
          simp_all

/-- Witness for C5 at a concrete text with one absent field. -/
theorem c5_missing_field_witness :
    searchNum max_rtt_pre max_rtt_suf pingMissingFieldInput = none ∧
    parse_ping_output pingMissingFieldInput = none :=
  ⟨by decide,
    c5_missing_field_returns_failure pingMissingFieldInput
      (Or.inr (Or.inr (Or.inr (by decide))))⟩

/-! ## Claim C2 -/

/-- C2 counterexample: the process invocation for a latency probe is
exactly `["ping", target]` — two elements, so it contains no fixed
packet-count argument and no fixed packet-size argument besides the
target; likewise the route-trace invocation is exactly
`["tracert", target]`, with no protocol-version flag. -/
theorem c2_no_fixed_probe_arguments :
    create_subprocess_exec_args (s2l "ping") (s2l "8.8.8.8") =
      [s2l "ping", s2l "8.8.8.8"] ∧
    (create_subprocess_exec_args (s2l "ping") (s2l "8.8.8.8")).length = 2 ∧
    create_subprocess_exec_args (s2l "tracert") (s2l "8.8.8.8") =
      [s2l "tracert", s2l "8.8.8.8"] := by
  decide

/-- C2 amended: for every command kind the external process invocation
consists of exactly the command name and the target, with no additional
fixed arguments. -/
theorem c2_invocation_is_command_and_target (command target : List Char) :
    create_subprocess_exec_args command target = [command, target] := rfl

/-! ## Claim C3 -/

/-- C3 counterexample: the parse of a hop-less route-trace text succeeds
with the empty sequence, but `run_diagnostic` then returns the
error-tagged string — Python's `if tracert_data:` truthiness test treats
the empty list like a failure — rather than serializing the empty
sequence. -/
theorem c3_empty_hops_error_counterexample :
    parse_tracert_output noHopLinesInput = some [] ∧
    run_result (s2l "tracert") noHopLinesInput [] =
      RunResult.errorStr (s2l "Error: Could not parse tracert output") := by
  decide

/-- C3 amended: whenever the route-trace parse yields the empty hop
sequence (and standard error is empty), the run operation returns the
error-tagged string `"Error: Could not parse tracert output"`, not a
serialization of the empty sequence. -/
theorem c3_empty_hops_error_tagged (out : List Char)
    (hempty : parse_tracert_output out = some []) :
    run_result (s2l "tracert") out [] =
      RunResult.errorStr (s2l "Error: Could not parse tracert output") := by
  have hbranch : run_tracert_branch out =
      RunResult.errorStr (s2l "Error: Could not parse tracert output") := by
    unfold run_tracert_branch
    rw [hempty]
    decide
  simp only [run_result]
  rw [if_neg (by decide), if_neg (by decide), hbranch]

/-- Witness for the amended C3 at a concrete hop-less text. -/
theorem c3_empty_hops_error_witness :
    parse_tracert_output noHopLinesInput2 = some [] ∧
    run_result (s2l "tracert") noHopLinesInput2 [] =
      RunResult.errorStr (s2l "Error: Could not parse tracert output") :=
  ⟨by decide, c3_empty_hops_error_tagged noHopLinesInput2 (by decide)⟩

/-! ## Claim C4 -/

/-- C4 counterexample: the parse does *not* yield the claimed sequence in
which hop 1's `avg_rtt` is the integer 11 — `sum(rtts) / len(rtts)` is
Python float division, so `avg_rtt` is the float `11.0` (serialized
`11.0`, not `11`). -/
theorem c4_avg_is_float_counterexample :
    parse_tracert_output tracertTwoHopInput ≠
      some [⟨1, s2l "10.0.0.1", JVal.int 10, JVal.int 11, JVal.int 12⟩,
        ⟨2, s2l "*", JVal.star, JVal.star, JVal.star⟩] := by
  decide

/-- C4 amended: the parse yields exactly the claimed two-hop sequence
except that hop 1's `avg_rtt` is the Python float `11.0` (a value
distinct from the integer 11 in serialization), not the integer 11. -/
theorem c4_two_hop_sequence :
    parse_tracert_output tracertTwoHopInput =
      some [⟨1, s2l "10.0.0.1", JVal.int 10, JVal.float 11, JVal.int 12⟩,
        ⟨2, s2l "*", JVal.star, JVal.star, JVal.star⟩] ∧
    JVal.float 11 ≠ JVal.int 11 := by
  decide

/-! ## Claim C6 -/

/-- C6: whenever the decoded standard-error text is non-empty, the run
operation returns exactly `"Error: " ++ err` — an error-tagged string
embedding the decoded standard-error content verbatim — and the result
does not depend on standard output (the equation holds for every `out`,
which is never parsed). -/
theorem c6_nonempty_stderr_error_tagged (command out err : List Char)
    (hne : err ≠ []) :
    run_result command out err = RunResult.errorStr (s2l "Error: " ++ err) := by
  simp only [run_result]
  have h : (!err.isEmpty) = true := by
    cases err with
    | nil => exact absurd rfl hne
    | cons c t => rfl
  rw [if_pos h]

/-- Witness for C6 at a concrete non-empty standard-error text. -/
theorem c6_nonempty_stderr_witness :
    s2l "access denied" ≠ [] ∧
    run_result (s2l "tracert") (s2l "some output") (s2l "access denied") =
      RunResult.errorStr (s2l "Error: " ++ s2l "access denied") ∧
    s2l "Error: " ++ s2l "access denied" = s2l "Error: access denied" :=
  ⟨by decide,
    c6_nonempty_stderr_error_tagged (s2l "tracert") (s2l "some output")
      (s2l "access denied") (by decide),
    by decide⟩

/-! ## Claim C7 -/

/-- C7 counterexample: for the unrecognized command kind `"nslookup"`,
`run_diagnostic` does *not* fail fast — it builds a process invocation
`["nslookup", target]` (the subprocess launch at line 182 happens before
any kind check, for every kind), and its result is not error-tagged: the
standard output is parsed by the tracert parser and serialized as a
successful result. -/
theorem c7_unrecognized_kind_counterexample :
    create_subprocess_exec_args (s2l "nslookup") (s2l "example.com") =
      [s2l "nslookup", s2l "example.com"] ∧
    (run_result (s2l "nslookup") tracertLikeOutput []).isErrorTagged = false ∧
    run_result (s2l "nslookup") tracertLikeOutput [] =
      RunResult.jsonTracert
        [⟨1, s2l "gateway", JVal.int 5, JVal.float 5, JVal.int 5⟩] := by
  decide

/-- C7 amended: an unrecognized command kind never reaches the Probe
Runner — `process_message` silently ignores it (no dispatch, no error
result); the runner itself performs no validation and treats every
non-`"ping"` command through the tracert branch. -/
theorem c7_unrecognized_kind_ignored_not_failed :
    (∀ msg : InboundMsg, msg.command ≠ some (s2l "ping") →
        msg.command ≠ some (s2l "tracert") →
        process_message_dispatch msg = none) ∧
    (∀ command out : List Char, command ≠ s2l "ping" →
        run_result command out [] = run_tracert_branch out) := by
  constructor
  · intro msg hp ht
    simp only [process_message_dispatch]
    split
    · cases hc : msg.command with
      | none => rfl
      | some c =>
          have hcne : ¬(c = s2l "tracert" ∨ c = s2l "ping") := by
            rintro (h | h)
            · exact ht (hc.trans (congrArg some h))
            · exact hp (hc.trans (congrArg some h))
          show (if c = s2l "tracert" ∨ c = s2l "ping" then
              some (c, msg.target) else none) = none
          rw [if_neg hcne]
    · rfl
  · intro command out hcmd
    simp only [run_result]
    rw [if_neg (by decide), if_neg hcmd]

/-- Witness for the amended C7 at a concrete unrecognized kind. -/
theorem c7_unrecognized_kind_witness :
    process_message_dispatch
      ⟨some (s2l "command"), some (s2l "netstat"), some (s2l "example.org")⟩ =
      none ∧
    run_result (s2l "pathping") (s2l "abc") [] =
      run_tracert_branch (s2l "abc") :=
  ⟨c7_unrecognized_kind_ignored_not_failed.1 _ (by decide) (by decide),
   c7_unrecognized_kind_ignored_not_failed.2 (s2l "pathping") (s2l "abc")
     (by decide)⟩

/-! ## Claim C8 -/

/-- C8: when the Session reaches registration with an empty
`agreement_id`, the whole connection trace is the single event
`exitProcess`: the process terminates, no registration and no result
message is ever sent (for any inbox whatsoever), and registration is not
retried. -/
theorem c8_empty_identifier_terminates
    (city os_name hostname : List Char)
    (inbox : List (InboundMsg × List Char × List Char)) :
    connection_events [] city os_name hostname inbox =
      [SessionEvent.exitProcess] := by
  simp [connection_events, register_client]

/-! ## Claim C9 -/

/-- C9 counterexample: the raw input's post-third lines are
`["1 10 ms a", "2 20 ms b"]`, and `"1 10 ms a"` is a recognizable hop-1
line — yet the parse output contains only hop 2.  The parser does not
discard "exactly the first three lines of the input": it strips
leading/trailing whitespace first, so the hop-1 line lands among the
three discarded lines. -/
theorem c9_strip_shifts_lines_counterexample :
    parse_tracert_output headerShiftInput =
      some [⟨2, s2l "b", JVal.int 20, JVal.float 20, JVal.int 20⟩] ∧
    (pySplitlines headerShiftInput).drop 3 =
      [s2l "1 10 ms a", s2l "2 20 ms b"] ∧
    parseHopLine (s2l "1 10 ms a") =
      some (some ⟨1, s2l "a", JVal.int 10, JVal.float 10, JVal.int 10⟩) := by
  decide

/-- C9 amended: the parser discards the first three lines of the
*whitespace-stripped* input (regardless of content); outside the
exception case, the hops are exactly the order-preserving `filterMap`
of the per-line parse over the post-skip lines; and every returned
hop's index is the value of the leading digit run of its source line. -/
theorem c9_skip_after_strip_and_hop_index :
    (∀ output, parse_tracert_output output =
        collectHops ((pySplitlines (pyStrip output)).drop 3)) ∧
    (∀ (lines : List (List Char)) (hops : List RouteHop),
        collectHops lines = some hops →
        hops = lines.filterMap (fun l => (parseHopLine l).join)) ∧
    (∀ (line : List Char) (h : RouteHop),
        parseHopLine line = some (some h) →
        h.hop = natOfDigits
          ((line.dropWhile isPySpace).takeWhile isDigitChar)) :=
  ⟨fun _ => rfl, collectHops_filterMap, fun _ _ hs => parseHopLine_hop hs⟩

/-- Witness for the amended C9 at concrete inputs. -/
theorem c9_skip_witness :
    parse_tracert_output (s2l "q\nw\ne\nr") =
      collectHops ((pySplitlines (pyStrip (s2l "q\nw\ne\nr"))).drop 3) ∧
    ([] : List RouteHop) =
      [s2l "r"].filterMap (fun l => (parseHopLine l).join) ∧
    (⟨4, s2l "172.16.0.1", JVal.int 3, JVal.float 4, JVal.int 5⟩ :
        RouteHop).hop =
      natOfDigits (((s2l " 4 3 ms 5 ms 4 ms 172.16.0.1").dropWhile
        isPySpace).takeWhile isDigitChar) :=
  ⟨c9_skip_after_strip_and_hop_index.1 (s2l "q\nw\ne\nr"),
   c9_skip_after_strip_and_hop_index.2.1 [s2l "r"] [] (by decide),
   c9_skip_after_strip_and_hop_index.2.2 (s2l " 4 3 ms 5 ms 4 ms 172.16.0.1")
     ⟨4, s2l "172.16.0.1", JVal.int 3, JVal.float 4, JVal.int 5⟩ (by decide)⟩

/-! ## Claim C10 -/

/-- C10 counterexample: a recognized hop whose single sample is
`2⁵³ + 1`.  Python stores `min_rtt`/`max_rtt` as exact ints but
`avg_rtt` as the binary64 float `(2⁵³+1)/1`, which rounds (tie to even)
down to `2⁵³`: the stored mean is strictly below the stored minimum, so
`min_rtt ≤ avg_rtt` is false for this hop (Python compares int and
float exactly), refuting the claimed invariant. -/
theorem c10_rounded_mean_counterexample :
    parse_tracert_output bigSampleInput =
      some [⟨1, s2l "host", JVal.int 9007199254740993,
        JVal.float 9007199254740992, JVal.int 9007199254740993⟩] ∧
    ¬((9007199254740993 : ℚ) ≤ (9007199254740992 : ℚ)) := by
  constructor
  · decide
  · norm_num

/-- C10 amended: for every hop of a successful parse whose statistics
are numeric, the *exact* arithmetic mean of its samples lies between
its minimum and maximum, and the stored `avg_rtt` is the binary64
rounding (`pyFloatDiv`) of that exact mean.  It is the rounding — not
the exact mean — that can leave `[min_rtt, max_rtt]` once samples reach
`2⁵³`, as the counterexample shows. -/
theorem c10_min_avg_max_of_exact_mean
    (output : List Char) (hops : List RouteHop)
    (hp : parse_tracert_output output = some hops)
    (h : RouteHop) (hmem : h ∈ hops) (n m : Nat) (q : ℚ)
    (hn : h.min_rtt = JVal.int n) (hq : h.avg_rtt = JVal.float q)
    (hm : h.max_rtt = JVal.int m) :
    ∃ s l : Nat, pyFloatDiv s l = some q ∧
      ((n : Nat) : ℚ) ≤ ((s : Nat) : ℚ) / ((l : Nat) : ℚ) ∧
      ((s : Nat) : ℚ) / ((l : Nat) : ℚ) ≤ ((m : Nat) : ℚ) := by
  simp only [parse_tracert_output] at hp
  obtain ⟨line, hline, hsome⟩ := collectHops_mem hp hmem
  obtain ⟨num, ip, rtts, hh⟩ := parseHopLine_shape hsome
  cases rtts with
  | nil =>
      simp only [hopOfRtts] at hh
      cases hh
      simp at hn
  | cons a t =>
      simp only [hopOfRtts] at hh
      rcases hfd : pyFloatDiv (sumList (a :: t)) (a :: t).length with _ | avq <;>
        rw [hfd] at hh
      · cases hh
      · cases hh
        injection hn with hn
        injection hq with hq
        injection hm with hm
        subst hn
        subst hm
        subst hq
        exact ⟨sumList (a :: t), (a :: t).length, hfd,
          pyMin_le_mean_le_pyMax a t⟩

/-- Witness for the amended C10 at a concrete numeric hop. -/
theorem c10_exact_mean_witness :
    parse_tracert_output numericHopInput =
      some [⟨5, s2l "203.0.113.9", JVal.int 4, JVal.float 5, JVal.int 6⟩] ∧
    ∃ s l : Nat, pyFloatDiv s l = some 5 ∧
      ((4 : Nat) : ℚ) ≤ ((s : Nat) : ℚ) / ((l : Nat) : ℚ) ∧
      ((s : Nat) : ℚ) / ((l : Nat) : ℚ) ≤ ((6 : Nat) : ℚ) :=
  ⟨by decide,
    c10_min_avg_max_of_exact_mean numericHopInput
      [⟨5, s2l "203.0.113.9", JVal.int 4, JVal.float 5, JVal.int 6⟩]
      (by decide)
      ⟨5, s2l "203.0.113.9", JVal.int 4, JVal.float 5, JVal.int 6⟩
      (by decide) 4 6 5 rfl rfl rfl⟩

end OrttClient
